import Mathlib

/-!
# Verification of the GameGuide RAWG API client

Shallow embedding of the resilient API client in `rawg_client.py`
(retry/backoff wrapper, rate limiter, HTTP request executor), of the
popularity-date helper, of the achievement-percentage normalization in
the Advanced Search page, and of the (framework- or page-provided)
response cache and best-fuzzy-match helper, together with theorems about
the behaviour claimed in the specification.

Machine integers do not occur (Python integers are unbounded); time and
delays are modelled as rationals; network outcomes are explicit data so
that the executor and the retry wrapper become pure functions of the
simulated outcome of each attempt.
-/

namespace GameGuide

/-! ## Logging

`logging.basicConfig(level=logging.INFO)` is executed at module import,
so a record is emitted exactly when its level is at least 20 (INFO).
A log record is a (level, message) pair; DEBUG = 10, INFO = 20,
WARNING = 30, ERROR = 40. -/

abbrev LogRec := Nat × String

instance {ε α : Type} [DecidableEq ε] [DecidableEq α] : DecidableEq (Except ε α)
  | .ok a, .ok b =>
      match decEq a b with
      | isTrue h => isTrue (by rw [h])
      | isFalse h => isFalse (by intro hh; cases hh; exact h rfl)
  | .ok _, .error _ => isFalse (by intro hh; cases hh)
  | .error _, .ok _ => isFalse (by intro hh; cases hh)
  | .error e, .error f =>
      match decEq e f with
      | isTrue h => isTrue (by rw [h])
      | isFalse h => isFalse (by intro hh; cases hh; exact h rfl)

/-- Records actually emitted under the module's `basicConfig(level=logging.INFO)`. -/
def emittedLogs (logs : List LogRec) : List LogRec :=
  logs.filter (fun r => decide (20 ≤ r.1))

/-! ## String containment (used to state "the message contains ...") -/

/-- `listContains needle hay` is true iff `needle` occurs contiguously in `hay`. -/
def listContains (needle : List Char) : List Char → Bool
  | [] => needle.isEmpty
  | c :: cs => needle.isPrefixOf (c :: cs) || listContains needle cs

/-- `strContains hay needle` is true iff `needle` is a substring of `hay`. -/
def strContains (hay needle : String) : Bool :=
  listContains needle.toList hay.toList

/-! ## Query parameters and URLs

`_make_request` does `params['key'] = self.api_key` (overwrite in place if
present, else append; Python dicts preserve insertion order), then builds
`urljoin(self.base_url, endpoint)` and `requests` serializes the parameter
mapping into the query string of the final URL.  Percent-encoding of
reserved characters by `urlencode` is elided (collaborator function; every
value used in the development is a plain token). -/

def setParam : List (String × String) → String → String → List (String × String)
  | [], k, v => [(k, v)]
  | p :: ps, k, v => if p.1 = k then (k, v) :: ps else p :: setParam ps k v

def urlencodeParams (ps : List (String × String)) : String :=
  String.intercalate "&" (ps.map (fun p => p.1 ++ "=" ++ p.2))

/-- Split a character list at the first occurrence of `://`. -/
def splitSchemeRest : List Char → Option (List Char × List Char)
  | [] => none
  | ':' :: '/' :: '/' :: rest => some ([], rest)
  | c :: cs => (splitSchemeRest cs).map (fun p => (c :: p.1, p.2))

/-- `urllib.parse.urljoin`, restricted to the shape the client uses: every
endpoint path starts with `/`, for which `urljoin` keeps only the scheme
and authority of the base URL and replaces its whole path. -/
def urlJoin (base path : String) : String :=
  match path.toList with
  | '/' :: _ =>
      match splitSchemeRest base.toList with
      | some (scheme, rest) =>
          String.mk (scheme ++ ':' :: '/' :: '/' :: rest.takeWhile (fun c => decide (c ≠ '/'))) ++ path
      | none => path
  | _ => base ++ path

/-- Python `repr` of a string-valued dict, as interpolated by the f-string
in the debug log (`{'a': 'b', ...}`). -/
def formatParamsPy (ps : List (String × String)) : String :=
  "\x7b" ++ String.intercalate ", " (ps.map (fun p => "\x27" ++ p.1 ++ "\x27: \x27" ++ p.2 ++ "\x27")) ++ "\x7d"

/-- The full URL of the outgoing request, query string included. -/
def requestUrl (apiKey baseUrl endpoint : String) (params : List (String × String)) : String :=
  urlJoin baseUrl endpoint ++ "?" ++ urlencodeParams (setParam params "key" apiKey)

/-! ## Exceptions

`RAWGAPIError` and its subclass `RateLimitError`.  Both are caught by the
retry decorator's `except (requests.RequestException, RAWGAPIError)`
clause, so both kinds are retryable; the constructor records the kind. -/

inductive Exn where
  | rateLimitError (msg : String)
  | rawgAPIError (msg : String)
deriving DecidableEq, Repr

def Exn.msg : Exn → String
  | .rateLimitError m => m
  | .rawgAPIError m => m

/-! ## The HTTP request executor `_make_request`

The network itself is a collaborator: one attempt's outcome is either a
response (status, reason, parsed body) or one of the transport failures
that `requests` raises.  On status 200 the function returns the parsed
body, on 429 it raises `RateLimitError`, on 404 it returns `{}`, otherwise
it calls `raise_for_status()`, which raises `HTTPError` (a
`RequestException`, whose `str` embeds the status line and the full
request URL) for statuses 400-599 and does nothing for the rest, so the
function falls through and returns Python `None`. -/

inductive NetOutcome (β : Type) where
  | response (status : Nat) (reason : String) (body : β)
  | timeout
  | connectionError
  | otherRequestException (msg : String)
deriving DecidableEq, Repr

/-- The three distinct successful return shapes of `_make_request`:
a parsed JSON body (status 200), the empty dict `{}` (status 404), and
Python's implicit `None` (fall-through). -/
inductive ReqSuccess (β : Type) where
  | json (body : β)
  | emptyDict
  | noneReturn
deriving DecidableEq, Repr

/-- `str(HTTPError)` as built by `requests.Response.raise_for_status`. -/
def httpErrorText (status : Nat) (reason url : String) : String :=
  if status < 500 then
    toString status ++ " Client Error: " ++ reason ++ " for url: " ++ url
  else
    toString status ++ " Server Error: " ++ reason ++ " for url: " ++ url

/-- `raise_for_status` raises exactly for statuses in [400, 600). -/
def raiseForStatusMsg (status : Nat) (reason url : String) : Option String :=
  if 400 ≤ status ∧ status < 600 then some (httpErrorText status reason url) else none

structure ExecResult (β : Type) where
  result : Except Exn (ReqSuccess β)
  sentParams : List (String × String)
  url : String
  logs : List LogRec
deriving Repr

/-- The classification of one simulated outcome by `_make_request`'s
status handling and exception handlers. -/
def makeRequestResult (apiKey baseUrl endpoint : String) (params : List (String × String))
    (outcome : NetOutcome β) : Except Exn (ReqSuccess β) :=
  let url := requestUrl apiKey baseUrl endpoint params
  match outcome with
  | .timeout => .error (.rawgAPIError "Request timeout")
  | .connectionError => .error (.rawgAPIError "Connection error")
  | .otherRequestException m => .error (.rawgAPIError ("Request failed: " ++ m))
  | .response status reason body =>
      if status = 200 then .ok (.json body)
      else if status = 429 then .error (.rateLimitError "Rate limit exceeded")
      else if status = 404 then .ok .emptyDict
      else
        match raiseForStatusMsg status reason url with
        | some m => .error (.rawgAPIError ("Request failed: " ++ m))
        | none => .ok .noneReturn

/-- One invocation of `_make_request` on a simulated network outcome: the
key is injected into the parameter set, the URL is built, the f-string
debug record is passed to the logger (level 10, below the configured
INFO threshold), the call is made and its outcome classified. -/
def makeRequest (apiKey baseUrl endpoint : String) (params : List (String × String))
    (outcome : NetOutcome β) : ExecResult β :=
  let ps := setParam params "key" apiKey
  let url := requestUrl apiKey baseUrl endpoint params
  ⟨makeRequestResult apiKey baseUrl endpoint params outcome, ps, url,
    [(10, "Making request to: " ++ url ++ " with params: " ++ formatParamsPy ps)]⟩

/-- Outcomes on which the executor's observable behaviour cannot depend on
the API key: transport failures with fixed messages and statuses outside
the `raise_for_status` range (whose results are fixed constants or the
key-independent body). -/
def safeOutcome : NetOutcome β → Bool
  | .timeout => true
  | .connectionError => true
  | .otherRequestException _ => false
  | .response s _ _ =>
      decide (s = 200) || decide (s = 404) || decide (s = 429) || decide (s < 400) || decide (600 ≤ s)

/-! ## The retry decorator `retry_on_failure`

`for attempt in range(max_retries)` invokes the wrapped operation; a
retryable failure (`requests.RequestException` or `RAWGAPIError`) is
remembered, a warning is logged, and after every failed attempt except
the last one the wrapper sleeps `delay * (2 ** attempt)` seconds; after
the last failed attempt it logs an error and the loop ends, re-raising
the last observed exception.  One attempt of the wrapped operation is
modelled as its result together with the log records it produced; the
trace records the final result (`none` models Python's `raise None`,
reachable only when `max_retries = 0`), the sleeps actually performed,
the number of invocations of the operation, and all log records. -/

structure RetryRun (α : Type) where
  result : Option (Except Exn α)
  sleeps : List ℚ
  attempts : Nat
  logs : List LogRec
deriving Repr

def warnMsg (attempt : Nat) (e : Exn) (delay : ℚ) : String :=
  "Attempt " ++ toString (attempt + 1) ++ " failed: " ++ e.msg ++
    ". Retrying in " ++ toString delay ++ "s..."

def allFailedMsg (maxRetries : Nat) : String :=
  "All " ++ toString maxRetries ++ " attempts failed."

def retryAux (op : Nat → Except Exn α × List LogRec) (delay : ℚ) (maxRetries : Nat) :
    Nat → Nat → Option Exn → RetryRun α
  | 0, _, last => ⟨last.map Except.error, [], 0, []⟩
  | r + 1, attempt, _ =>
      let att := op attempt
      match att.1 with
      | .ok v => ⟨some (.ok v), [], 1, att.2⟩
      | .error e =>
          if attempt < maxRetries - 1 then
            let rest := retryAux op delay maxRetries r (attempt + 1) (some e)
            ⟨rest.result, delay * 2 ^ attempt :: rest.sleeps, rest.attempts + 1,
              att.2 ++ (30, warnMsg attempt e delay) :: rest.logs⟩
          else
            let rest := retryAux op delay maxRetries r (attempt + 1) (some e)
            ⟨rest.result, rest.sleeps, rest.attempts + 1,
              att.2 ++ (40, allFailedMsg maxRetries) :: rest.logs⟩

/-- The wrapper produced by `retry_on_failure(max_retries, delay)`. -/
def retryCall (op : Nat → Except Exn α × List LogRec) (maxRetries : Nat) (delay : ℚ) :
    RetryRun α :=
  retryAux op delay maxRetries maxRetries 0 none

/-- `_make_request` as actually deployed: the executor wrapped in the retry
decorator, with `outs i` the simulated network outcome of attempt `i`. -/
def retriedRequest (apiKey baseUrl endpoint : String) (params : List (String × String))
    (outs : Nat → NetOutcome β) (maxRetries : Nat) (delay : ℚ) : RetryRun (ReqSuccess β) :=
  retryCall
    (fun i =>
      let e := makeRequest apiKey baseUrl endpoint params (outs i)
      (e.result, e.logs))
    maxRetries delay

/-! ## The rate limiter `_wait_for_rate_limit`

`elapsed = time.time() - self.last_request_time`; if `elapsed` is below
`min_request_interval` the thread sleeps for the difference.  The function
returns the instant at which the wait ends (the start of the network
call); `_make_request` records `self.last_request_time = time.time()`
only after `session.get` returns. -/

def waitForRateLimit (minInterval lastRequestTime now : ℚ) : ℚ :=
  if now - lastRequestTime < minInterval then
    now + (minInterval - (now - lastRequestTime))
  else now

/-- Two back-to-back calls: the first arrives at `t1` against recorded time
`last0`, its network call starts after the wait and takes `d1 ≥ 0` seconds,
its completion time is recorded, and the second call arrives `gap ≥ 0`
seconds after that.  Returns the two network-call start times. -/
def twoBackToBackStarts (minInterval last0 t1 d1 gap : ℚ) : ℚ × ℚ :=
  let start1 := waitForRateLimit minInterval last0 t1
  let e1 := start1 + d1
  let t2 := e1 + gap
  let start2 := waitForRateLimit minInterval e1 t2
  (start1, start2)

/-! ## Configuration constants (`config.py` and client defaults) -/

def configMaxRetries : Nat := 3
def configRetryDelay : ℚ := 1
def configCacheTtl : ℚ := 3600
def minRequestInterval : ℚ := 1 / 10
def rawgBaseUrl : String := "https://api.rawg.io/api"
def gamesEndpoint : String := "/games"

/-! ## The response cache -/

structure CacheState (κ β : Type) where
  entries : List (κ × β × ℚ)

def lookupEntry [DecidableEq κ] (st : CacheState κ β) (key : κ) : Option (β × ℚ) :=
  (st.entries.find? (fun e => decide (e.1 = key))).map (fun e => (e.2.1, e.2.2))

def storeEntry [DecidableEq κ] (st : CacheState κ β) (key : κ) (v : β) (now : ℚ) :
    CacheState κ β :=
  ⟨(key, v, now) :: st.entries.filter (fun e => decide (e.1 ≠ key))⟩

structure CacheOutcome (κ β : Type) where
  result : Except Exn β
  state : CacheState κ β
  networkCalls : Nat

/-- Modelled from the spec: the Response Cache of §4.4.  In the source the
cache is attached declaratively to `get_games` and `get_game_details` by
the framework decorator `st.cache_data(ttl=config.cache_ttl, ...)`, whose
implementation lives in the Streamlit framework, not in this repository.
Contract (§4.4): return a cached value if present and younger than the
time-to-live, otherwise invoke the computation once and, only if it
succeeds, store its result with the current timestamp; failures are never
cached. -/
def getOrCompute [DecidableEq κ] (ttl now : ℚ) (key : κ) (compute : Unit → Except Exn β)
    (st : CacheState κ β) : CacheOutcome κ β :=
  match lookupEntry st key with
  | some (v, ts) =>
      if now - ts < ttl then ⟨.ok v, st, 0⟩
      else
        match compute () with
        | .ok v2 => ⟨.ok v2, storeEntry st key v2 now, 1⟩
        | .error e => ⟨.error e, st, 1⟩
  | none =>
      match compute () with
      | .ok v2 => ⟨.ok v2, storeEntry st key v2 now, 1⟩
      | .error e => ⟨.error e, st, 1⟩

/-! ## Dates and the popularity helper `get_popular_games`

`datetime.now()` is modelled as the proleptic Gregorian ordinal of the
current day (`datetime.date.toordinal`: day 1 is 0001-01-01); subtracting
`timedelta(weeks=1)`, `timedelta(days=30)` or `timedelta(days=365)`
subtracts 7, 30 or 365 from the ordinal and leaves the time of day
untouched, and `strftime(\x27%Y-%m-%d\x27)` formats the date part with the
year zero-padded to four digits and month/day to two.  Ordinals are turned
into calendar dates with the standard days-to-civil algorithm (all inputs
in scope are nonnegative after the epoch shift). -/

def civilFromDaysNat (z : Nat) : Nat × Nat × Nat :=
  let era := z / 146097
  let doe := z % 146097
  let yoe := (doe - doe / 1460 + doe / 36524 - doe / 146096) / 365
  let y := yoe + era * 400
  let doy := doe - (365 * yoe + yoe / 4 - yoe / 100)
  let mp := (5 * doy + 2) / 153
  let d := doy - (153 * mp + 2) / 5 + 1
  let m := if mp < 10 then mp + 3 else mp - 9
  (if m ≤ 2 then y + 1 else y, m, d)

/-- Calendar date (year, month, day) of a Python date ordinal.  Ordinal 1
is 0001-01-01, which is 305 days after the algorithm's internal origin. -/
def ordinalToDate (n : Nat) : Nat × Nat × Nat :=
  civilFromDaysNat (n + 305)

def pad2Chars (n : Nat) : List Char :=
  [Nat.digitChar (n / 10 % 10), Nat.digitChar (n % 10)]

def pad4Chars (n : Nat) : List Char :=
  [Nat.digitChar (n / 1000 % 10), Nat.digitChar (n / 100 % 10),
   Nat.digitChar (n / 10 % 10), Nat.digitChar (n % 10)]

/-- `strftime(\x27%Y-%m-%d\x27)` applied to the date of ordinal `n`
(faithful for years up to 9999, the full `datetime` range). -/
def formatOrdinal (n : Nat) : String :=
  let d := ordinalToDate n
  String.mk (pad4Chars d.1 ++ '-' :: (pad2Chars d.2.1 ++ '-' :: pad2Chars d.2.2))

/-- Recognizer for the shape `YYYY-MM-DD` (four digits, dash, two digits,
dash, two digits). -/
def isYmd (s : String) : Bool :=
  match s.toList with
  | [a, b, c, d, e, f, g, h, i, j] =>
      ([a, b, c, d, f, g, i, j]).all Char.isDigit && decide (e = '-') && decide (h = '-')
  | _ => false

/-- Days subtracted from "now" for each time period (`week`/`month`/`year`,
anything else falling back to a week). -/
def periodOffset (p : String) : Nat :=
  if p = "week" then 7
  else if p = "month" then 30
  else if p = "year" then 365
  else 7

/-- The `dates` query value `start,end` computed by `get_popular_games`. -/
def popularDates (nowOrd : Nat) (p : String) : String :=
  formatOrdinal (nowOrd - periodOffset p) ++ "," ++ formatOrdinal nowOrd

/-- Python `{**base, **kw}`: keys of `base` in order with values overridden
by `kw`, then the keys of `kw` not in `base`, in order. -/
def dictMerge (base kw : List (String × String)) : List (String × String) :=
  base.map (fun p => (p.1, (kw.lookup p.1).getD p.2)) ++
    kw.filter (fun q => !(base.any (fun p => p.1 == q.1)))

/-- The parameter set `get_popular_games` passes to `get_games`:
`{\x27dates\x27: dates, \x27ordering\x27: \x27-rating\x27, **kwargs}`. -/
def getPopularGamesParams (nowOrd : Nat) (period : String) (kwargs : List (String × String)) :
    List (String × String) :=
  dictMerge [("dates", popularDates nowOrd period), ("ordering", "-rating")] kwargs

/-! ## Best-fuzzy-match search

The page `09_Advanced_Search` calls `client.search_best_match(name)`. -/

/-- One row-update step of the longest-common-subsequence dynamic program:
`prev` is the previous row viewed from column `j` on and `cur` the value
just computed for column `j` of the new row. -/
def lcsStep (c : Char) : List Char → List Nat → Nat → List Nat
  | [], _, _ => []
  | _ :: _, [], _ => []
  | _ :: _, [_], _ => []
  | b :: bs, p0 :: p1 :: ps, cur =>
      let v := if c = b then p0 + 1 else max cur p1
      v :: lcsStep c bs (p1 :: ps) v

def lcsFold (bs : List Char) : List Char → List Nat → List Nat
  | [], row => row
  | a :: as, row => lcsFold bs as (0 :: lcsStep a bs row 0)

/-- Length of the longest common subsequence of two character lists. -/
def lcsLen (as bs : List Char) : Nat :=
  ((lcsFold bs as (List.replicate (bs.length + 1) 0)).getLast?).getD 0

/-- Lower-cased character list of a string (Python `str.lower()` on the
ASCII names in scope). -/
def lowerChars (s : String) : List Char :=
  s.toList.map Char.toLower

/-- The raw (unnormalized) similarity of a candidate to the query: the
longest-common-subsequence length of the lower-cased strings. -/
def lcsScore (query candidate : String) : Nat :=
  lcsLen (lowerChars query) (lowerChars candidate)

/-- Modelled from the spec: the string-similarity ratio of §4.6 (the
implementation of `search_best_match` is not among the source files; the
spec fixes neither the metric nor the cutoff value).  The ratio is the
longest-common-subsequence length of the lower-cased strings, normalized
by the query length. -/
def simScore (query candidate : String) : ℚ :=
  (lcsScore query candidate : ℚ) / (query.length : ℚ)

/-- Modelled from the spec: the fixed similarity cutoff of §4.6. -/
def simCutoff : ℚ := 3 / 5

/-- `simCutoff < simScore q c`, evaluated by integer cross-multiplication
(proved equivalent in `simCutoff_lt_iff`). -/
def aboveCutoff (q c : String) : Bool :=
  decide (3 * q.length < 5 * lcsScore q c)

/-- First candidate attaining the maximal similarity score (earlier
candidates win ties); the scores compared share the denominator
`q.length`, so the comparison is on the raw scores (proved equivalent in
`simScore_le_iff`). -/
def pickBest (q : String) : List String → Option String
  | [] => none
  | c :: cs =>
      match pickBest q cs with
      | none => some c
      | some b => if lcsScore q b ≤ lcsScore q c then some c else some b

def bestAboveCutoff (q : String) (cs : List String) : Option String :=
  pickBest q (cs.filter (fun c => aboveCutoff q c))

/-- Modelled from the spec: `search_best_match` (§4.6), called by the
Advanced Search page but not defined in the source files.  Strict
priority: (1) first candidate whose name is case-insensitive-equal to the
query, (2) the single closest match by similarity ratio above the cutoff,
(3) the first candidate of the remote ranking; `none` only when the
candidate list is empty. -/
def searchBestMatch (query : String) : List String → Option String
  | [] => none
  | c0 :: cs =>
      match (c0 :: cs).find? (fun c => lowerChars c == lowerChars query) with
      | some c => some c
      | none =>
          match bestAboveCutoff query (c0 :: cs) with
          | some c => some c
          | none => some c0

/-! ## Achievement percentage normalization (Advanced Search page)

```
percent = ach.get("percent")
try:
    ach["percent"] = float(percent)
except (ValueError, TypeError):
    ach["percent"] = None
```

A raw field value is `None` (missing), a number, or a string; `float()`
raises TypeError on `None` and ValueError on a non-numeric string, both
caught and mapped to `None`.  `Option.none` in the result models the
stored Python `None`. -/

inductive PyVal where
  | none
  | num (q : ℚ)
  | str (s : String)
deriving DecidableEq, Repr

def isPyWs (c : Char) : Bool :=
  c = ' ' || c = '\t' || c = '\n' || c = '\r' || c = '\x0b' || c = '\x0c'

def trimWs (cs : List Char) : List Char :=
  ((cs.dropWhile isPyWs).reverse.dropWhile isPyWs).reverse

/-- Leading decimal digits of a character list, as values, with the rest. -/
def spanDigits : List Char → List Nat × List Char
  | [] => ([], [])
  | c :: rest =>
      if c.isDigit then
        let r := spanDigits rest
        ((c.toNat - 48) :: r.1, r.2)
      else ([], c :: rest)

def digitsToNat (ds : List Nat) : Nat :=
  ds.foldl (fun acc d => acc * 10 + d) 0

def parseSign : List Char → Bool × List Char
  | '-' :: cs => (true, cs)
  | '+' :: cs => (false, cs)
  | cs => (false, cs)

/-- Optional exponent part after the mantissa; everything must be consumed. -/
def parseExpTail (neg : Bool) (mant : ℚ) (cs : List Char) : Option ℚ :=
  let s := parseSign cs
  let d := spanDigits s.2
  if d.1.isEmpty || !d.2.isEmpty then Option.none
  else
    let e : Int := if s.1 then -(digitsToNat d.1 : Int) else (digitsToNat d.1 : Int)
    some ((if neg then -mant else mant) * (10 : ℚ) ^ e)

def finishFloat (neg : Bool) (mant : ℚ) : List Char → Option ℚ
  | [] => some (if neg then -mant else mant)
  | 'e' :: cs => parseExpTail neg mant cs
  | 'E' :: cs => parseExpTail neg mant cs
  | _ => Option.none

/-- Python's `float(str)` on the decimal grammar
`[ws][sign](digits[.digits] | .digits)[(e|E)[sign]digits][ws]`; the
special values `inf`/`nan` and digit-group underscores, which no remote
percentage uses, are elided (collaborator builtin). -/
def pyFloatOfString (s : String) : Option ℚ :=
  let cs := trimWs s.toList
  let sg := parseSign cs
  let ip := spanDigits sg.2
  match ip.2 with
  | '.' :: cs3 =>
      let fp := spanDigits cs3
      if ip.1.isEmpty && fp.1.isEmpty then Option.none
      else
        let mant : ℚ := (digitsToNat (ip.1 ++ fp.1) : ℚ) / (10 : ℚ) ^ fp.1.length
        finishFloat sg.1 mant fp.2
  | _ =>
      if ip.1.isEmpty then Option.none
      else finishFloat sg.1 (digitsToNat ip.1 : ℚ) ip.2

/-- The builtin `float` on the values a percent field can hold, with a
raised ValueError/TypeError represented as `Option.none`. -/
def pyFloat : PyVal → Option ℚ
  | .num q => some q
  | .str s => pyFloatOfString s
  | .none => Option.none

/-- The value stored back into `ach["percent"]` by the page's
try/except block: the converted float, or Python `None` when `float()`
raised (the except clause catches exactly ValueError and TypeError). -/
def normalizePercent (v : PyVal) : Option ℚ :=
  match pyFloat v with
  | some q => some q
  | Option.none => Option.none

/-! ## Helper lemmas -/

theorem isPrefixOf_append_self (l t : List Char) : l.isPrefixOf (l ++ t) = true := by
  induction l with
  | nil => simp [List.isPrefixOf]
  | cons c cs ih => simp [List.isPrefixOf, ih]

theorem listContains_append (pre mid post : List Char) :
    listContains mid (pre ++ (mid ++ post)) = true := by
  induction pre with
  | nil =>
      cases mid with
      | nil =>
          cases post with
          | nil => rfl
          | cons c cs => simp [listContains, List.isPrefixOf]
      | cons m ms => simp [listContains, isPrefixOf_append_self]
  | cons p ps ih => simp [listContains, ih]

theorem toList_append (s t : String) : (s ++ t).toList = s.toList ++ t.toList :=
  String.data_append s t

theorem strContains_middle (pre mid post : String) :
    strContains (pre ++ (mid ++ post)) mid = true := by
  unfold strContains
  rw [toList_append, toList_append]
  exact listContains_append pre.toList mid.toList post.toList

theorem setParam_mem (ps : List (String × String)) (k v : String) :
    (k, v) ∈ setParam ps k v := by
  induction ps with
  | nil => simp [setParam]
  | cons p ps ih =>
      by_cases h : p.1 = k
      · simp [setParam, h]
      · simp only [setParam, if_neg h]
        exact List.mem_cons_of_mem _ ih

/-! ## Claim C7 -/

/-- Claim C7: a simulated HTTP 404 response makes the executor return the
explicit empty-result value `{}` rather than raise an exception — "not
found" is never an error. -/
theorem c7_not_found_is_empty (apiKey baseUrl endpoint : String)
    (params : List (String × String)) (reason : String) (body : β) :
    (makeRequest apiKey baseUrl endpoint params
        (NetOutcome.response 404 reason body)).result = Except.ok ReqSuccess.emptyDict ∧
    ∀ e, (makeRequest apiKey baseUrl endpoint params
        (NetOutcome.response 404 reason body)).result ≠ Except.error e := by
  have h1 : (makeRequest apiKey baseUrl endpoint params
      (NetOutcome.response 404 reason body)).result = Except.ok ReqSuccess.emptyDict := rfl
  exact ⟨h1, fun e h => by rw [h1] at h; exact Except.noConfusion h⟩

/-! ## Claim C10 -/

/-- Claim C10: a response whose status is in the success/redirect range but
is not exactly 200 matches no status branch, `raise_for_status` does not
raise below 400, and the executor falls through returning Python `None`;
a parsed JSON body is produced exactly for status 200. -/
theorem c10_only_200_parses (apiKey baseUrl endpoint : String)
    (params : List (String × String)) (status : Nat) (reason : String) (body : β)
    (h1 : 200 ≤ status) (h2 : status < 400) (h3 : status ≠ 200) :
    (makeRequest apiKey baseUrl endpoint params
        (NetOutcome.response status reason body)).result = Except.ok ReqSuccess.noneReturn ∧
    ∀ (s : Nat) (x : β), (makeRequest apiKey baseUrl endpoint params
        (NetOutcome.response s reason body)).result = Except.ok (ReqSuccess.json x) →
      s = 200 ∧ x = body := by
  constructor
  · have h429 : status ≠ 429 := by omega
    have h404 : status ≠ 404 := by omega
    have hr : ¬ (400 ≤ status ∧ status < 600) := by omega
    simp [makeRequest, makeRequestResult, raiseForStatusMsg, h3, h429, h404, hr]
  · intro s x h
    by_cases hs : s = 200
    · subst hs
      simp only [makeRequest, makeRequestResult, if_pos rfl] at h
      cases h
      exact ⟨rfl, rfl⟩
    · exfalso
      by_cases h429 : s = 429
      · simp [makeRequest, makeRequestResult, hs, h429] at h
      · by_cases h404 : s = 404
        · simp [makeRequest, makeRequestResult, hs, h429, h404] at h
        · by_cases hr : 400 ≤ s ∧ s < 600
          · simp [makeRequest, makeRequestResult, raiseForStatusMsg, hs, h429, h404, hr] at h
          · simp [makeRequest, makeRequestResult, raiseForStatusMsg, hs, h429, h404, hr] at h

/-- Witness for C10 at the concrete statuses 201, 204 and 304. -/
theorem c10_only_200_parses_witness :
    (makeRequest "K" rawgBaseUrl gamesEndpoint []
        (NetOutcome.response 201 "Created" (() : Unit))).result = Except.ok ReqSuccess.noneReturn ∧
    (makeRequest "K" rawgBaseUrl gamesEndpoint []
        (NetOutcome.response 204 "No Content" (() : Unit))).result = Except.ok ReqSuccess.noneReturn ∧
    (makeRequest "K" rawgBaseUrl gamesEndpoint []
        (NetOutcome.response 304 "Not Modified" (() : Unit))).result = Except.ok ReqSuccess.noneReturn :=
  ⟨(c10_only_200_parses "K" rawgBaseUrl gamesEndpoint [] 201 "Created" ()
      (by norm_num) (by norm_num) (by norm_num)).1,
   (c10_only_200_parses "K" rawgBaseUrl gamesEndpoint [] 204 "No Content" ()
      (by norm_num) (by norm_num) (by norm_num)).1,
   (c10_only_200_parses "K" rawgBaseUrl gamesEndpoint [] 304 "Not Modified" ()
      (by norm_num) (by norm_num) (by norm_num)).1⟩

/-! ## Claim C6 -/

/-- Claim C6: between two back-to-back executor calls at least
`min_interval` seconds elapse between the start times of the underlying
network calls: the wait blocks until at least `min_interval` seconds have
passed since the recorded time of the previous permitted call (and never
moves time backwards), and the completion time of the first call is the
time the second call's wait measures from. -/
theorem c6_rate_limit_spacing (minInterval last0 t1 d1 gap : ℚ)
    (hd : 0 ≤ d1) (hg : 0 ≤ gap) :
    (twoBackToBackStarts minInterval last0 t1 d1 gap).1 + minInterval ≤
      (twoBackToBackStarts minInterval last0 t1 d1 gap).2 ∧
    ∀ last now : ℚ, last + minInterval ≤ waitForRateLimit minInterval last now ∧
      now ≤ waitForRateLimit minInterval last now := by
  constructor
  · simp only [twoBackToBackStarts, waitForRateLimit]
    split_ifs with h h2 h3 <;> linarith
  · intro last now
    simp only [waitForRateLimit]
    split_ifs with h
    · constructor <;> linarith
    · constructor <;> linarith

/-- Witness for C6 with the client's `min_request_interval` of 0.1s. -/
theorem c6_rate_limit_spacing_witness :
    (twoBackToBackStarts minRequestInterval 0 0 (1 / 50) (1 / 100)).1 + minRequestInterval ≤
      (twoBackToBackStarts minRequestInterval 0 0 (1 / 50) (1 / 100)).2 ∧
    (0 : ℚ) + minRequestInterval ≤ waitForRateLimit minRequestInterval 0 (1 / 20) ∧
    (1 / 20 : ℚ) ≤ waitForRateLimit minRequestInterval 0 (1 / 20) :=
  ⟨(c6_rate_limit_spacing minRequestInterval 0 0 (1 / 50) (1 / 100)
      (by norm_num) (by norm_num)).1,
   (c6_rate_limit_spacing minRequestInterval 0 0 (1 / 50) (1 / 100)
      (by norm_num) (by norm_num)).2 0 (1 / 20)⟩

/-! ## Claim C8 -/

theorem digitChar_isDigit : ∀ v < 10, (Nat.digitChar v).isDigit = true := by decide

theorem isYmd_formatOrdinal (n : Nat) : isYmd (formatOrdinal n) = true := by
  have hd : ∀ x : Nat, (Nat.digitChar (x % 10)).isDigit = true :=
    fun x => digitChar_isDigit _ (Nat.mod_lt _ (by norm_num))
  simp [formatOrdinal, isYmd, pad4Chars, pad2Chars, hd]

/-- Claim C8: the popularity helper's date range is a pure function of the
injected "now" and the period: the `dates` parameter is
`start,end` with `end` formatted from "now" and `start` exactly 7, 30 or
365 days earlier for `week`/`month`/`year`, both in `YYYY-MM-DD` shape,
and the request orders by the popularity signal `-rating`. -/
theorem c8_popular_dates (nowOrd : Nat) (period : String) (kwargs : List (String × String))
    (hk1 : kwargs.lookup "dates" = Option.none)
    (hk2 : kwargs.lookup "ordering" = Option.none)
    (hnow : 366 ≤ nowOrd) :
    (getPopularGamesParams nowOrd period kwargs).lookup "dates" =
        some (formatOrdinal (nowOrd - periodOffset period) ++ "," ++ formatOrdinal nowOrd) ∧
    (getPopularGamesParams nowOrd period kwargs).lookup "ordering" = some "-rating" ∧
    (period = "week" → periodOffset period = 7) ∧
    (period = "month" → periodOffset period = 30) ∧
    (period = "year" → periodOffset period = 365) ∧
    isYmd (formatOrdinal (nowOrd - periodOffset period)) = true ∧
    isYmd (formatOrdinal nowOrd) = true := by
  refine ⟨?_, ?_, ?_, ?_, ?_, isYmd_formatOrdinal _, isYmd_formatOrdinal _⟩
  · simp [getPopularGamesParams, dictMerge, popularDates, List.lookup, hk1]
  · simp [getPopularGamesParams, dictMerge, List.lookup, hk2]
  · intro h; subst h; rfl
  · intro h; subst h; rfl
  · intro h; subst h; rfl

/-- Witness for C8 at the concrete ordinal of 2025-10-12 and each period. -/
theorem c8_popular_dates_witness :
    (getPopularGamesParams 739536 "week" []).lookup "dates" =
        some (formatOrdinal (739536 - periodOffset "week") ++ "," ++ formatOrdinal 739536) ∧
    (getPopularGamesParams 739536 "week" []).lookup "ordering" = some "-rating" ∧
    periodOffset "week" = 7 ∧
    isYmd (formatOrdinal 739536) = true := by
  have h := c8_popular_dates 739536 "week" [] rfl rfl (by norm_num)
  exact ⟨h.1, h.2.1, h.2.2.1 rfl, h.2.2.2.2.2.2⟩

/-! ## Claim C1 -/

/-- Core lemma on the retry loop: if every remaining attempt fails, the
loop performs all of them, sleeps `delay * 2 ^ i` after each failed
attempt `i` except the last, and ends with the error of the final
attempt. -/
theorem retryAux_allFail (op : Nat → Except Exn α × List LogRec) (delay : ℚ)
    (m : Nat) (errs : Nat → Exn)
    (hop : ∀ i, i < m → (op i).1 = .error (errs i)) :
    ∀ (r a : Nat) (last : Option Exn), a + r = m → 1 ≤ r →
      (retryAux op delay m r a last).result = some (.error (errs (m - 1))) ∧
      (retryAux op delay m r a last).attempts = r ∧
      (retryAux op delay m r a last).sleeps =
        (List.range' a (r - 1)).map (fun i => delay * 2 ^ i) := by
  intro r
  induction r with
  | zero => intro a last h h1; omega
  | succ r ih =>
      intro a last h _
      have ha : a < m := by omega
      have hop_a := hop a ha
      by_cases hlt : a < m - 1
      · have hr1 : 1 ≤ r := by omega
        have hrec := ih (a + 1) (some (errs a)) (by omega) hr1
        simp only [retryAux, hop_a, if_pos hlt]
        refine ⟨hrec.1, by rw [hrec.2.1], ?_⟩
        rw [hrec.2.2]
        have hr : r = (r - 1) + 1 := by omega
        rw [show Nat.succ r - 1 = (r - 1) + 1 from by omega, List.range'_succ, List.map_cons]
      · have hr0 : r = 0 := by omega
        have haeq : a = m - 1 := by omega
        subst hr0
        simp only [retryAux, hop_a, if_neg hlt]
        refine ⟨?_, by trivial, by trivial⟩
        show Option.map Except.error (some (errs a)) = some (Except.error (errs (m - 1)))
        rw [haeq]
        rfl

/-- Claim C1: when every attempt of a retried operation raises a retryable
failure, the operation is invoked exactly `max_retries` times with
`max_retries - 1` sleeps between them, the sleep after failed attempt `i`
lasts `delay * 2 ^ i` seconds (each sleep twice the previous one, strictly
increasing for positive delay), and the last observed failure is re-raised
unchanged. -/
theorem c1_retry_schedule (maxRetries : Nat) (delay : ℚ)
    (op : Nat → Except Exn α × List LogRec) (errs : Nat → Exn)
    (hm : 1 ≤ maxRetries)
    (hop : ∀ i, i < maxRetries → (op i).1 = .error (errs i)) :
    (retryCall op maxRetries delay).attempts = maxRetries ∧
    (retryCall op maxRetries delay).result = some (.error (errs (maxRetries - 1))) ∧
    (retryCall op maxRetries delay).sleeps =
      (List.range (maxRetries - 1)).map (fun i => delay * 2 ^ i) ∧
    (∀ i, i + 1 < maxRetries - 1 →
      (retryCall op maxRetries delay).sleeps[i + 1]? =
        ((retryCall op maxRetries delay).sleeps[i]?).map (fun x => 2 * x)) ∧
    (0 < delay → (retryCall op maxRetries delay).sleeps.Pairwise (· < ·)) := by
  have h := retryAux_allFail op delay maxRetries errs hop maxRetries 0 none (by omega) hm
  have hsleeps : (retryCall op maxRetries delay).sleeps =
      (List.range (maxRetries - 1)).map (fun i => delay * 2 ^ i) := by
    rw [List.range_eq_range']
    exact h.2.2
  refine ⟨h.2.1, h.1, hsleeps, ?_, ?_⟩
  · intro i hi
    rw [hsleeps, List.getElem?_map, List.getElem?_map, List.getElem?_range (by omega),
      List.getElem?_range (by omega)]
    show some (delay * 2 ^ (i + 1)) = some (2 * (delay * 2 ^ i))
    exact congrArg some (by ring)
  · intro hdel
    rw [hsleeps, List.pairwise_map]
    refine List.Pairwise.imp ?_ (List.pairwise_lt_range _)
    intro a b hab
    exact mul_lt_mul_of_pos_left (pow_lt_pow_right₀ (by norm_num) hab) hdel

/-- Witness for C1: with the configured `max_retries = 3`, `delay = 1`,
a simulated always-429 response and a simulated always-timeout transport
error are both attempted 3 times with sleeps `[1, 2]` (strictly doubling)
and surface the final failure unchanged in kind. -/
theorem c1_retry_schedule_witness :
    ((retriedRequest "K" rawgBaseUrl gamesEndpoint []
        (fun _ => NetOutcome.response 429 "Too Many Requests" (() : Unit))
        configMaxRetries configRetryDelay).attempts = 3 ∧
     (retriedRequest "K" rawgBaseUrl gamesEndpoint []
        (fun _ => NetOutcome.response 429 "Too Many Requests" (() : Unit))
        configMaxRetries configRetryDelay).result =
          some (.error (.rateLimitError "Rate limit exceeded")) ∧
     (retriedRequest "K" rawgBaseUrl gamesEndpoint []
        (fun _ => NetOutcome.response 429 "Too Many Requests" (() : Unit))
        configMaxRetries configRetryDelay).sleeps = [1, 2]) ∧
    ((retriedRequest "K" rawgBaseUrl gamesEndpoint []
        (fun _ => (NetOutcome.timeout : NetOutcome Unit))
        configMaxRetries configRetryDelay).attempts = 3 ∧
     (retriedRequest "K" rawgBaseUrl gamesEndpoint []
        (fun _ => (NetOutcome.timeout : NetOutcome Unit))
        configMaxRetries configRetryDelay).result =
          some (.error (.rawgAPIError "Request timeout")) ∧
     (retriedRequest "K" rawgBaseUrl gamesEndpoint []
        (fun _ => (NetOutcome.timeout : NetOutcome Unit))
        configMaxRetries configRetryDelay).sleeps = [1, 2]) := by
  have h1 := c1_retry_schedule configMaxRetries configRetryDelay
    (fun i =>
      let e := makeRequest "K" rawgBaseUrl gamesEndpoint []
        (NetOutcome.response 429 "Too Many Requests" (() : Unit))
      (e.result, e.logs))
    (fun _ => .rateLimitError "Rate limit exceeded") (by decide) (fun i _ => rfl)
  have h2 := c1_retry_schedule configMaxRetries configRetryDelay
    (fun i =>
      let e := makeRequest "K" rawgBaseUrl gamesEndpoint []
        (NetOutcome.timeout : NetOutcome Unit)
      (e.result, e.logs))
    (fun _ => .rawgAPIError "Request timeout") (by decide) (fun i _ => rfl)
  refine ⟨⟨h1.1, h1.2.1, ?_⟩, ⟨h2.1, h2.2.1, ?_⟩⟩
  · show (retryCall
        (fun i =>
          let e := makeRequest "K" rawgBaseUrl gamesEndpoint []
            (NetOutcome.response 429 "Too Many Requests" (() : Unit))
          (e.result, e.logs))
        configMaxRetries configRetryDelay).sleeps = [1, 2]
    rw [h1.2.2.1]
    show (List.range 2).map (fun i => (1 : ℚ) * 2 ^ i) = [1, 2]
    norm_num [List.range_succ]
  · show (retryCall
        (fun i =>
          let e := makeRequest "K" rawgBaseUrl gamesEndpoint []
            (NetOutcome.timeout : NetOutcome Unit)
          (e.result, e.logs))
        configMaxRetries configRetryDelay).sleeps = [1, 2]
    rw [h2.2.2.1]
    show (List.range 2).map (fun i => (1 : ℚ) * 2 ^ i) = [1, 2]
    norm_num [List.range_succ]

/-! ## Claim C3

The claim says a non-2xx/404/429 status is surfaced immediately, without
retrying and without consuming retry budget.  In the source,
`raise_for_status()` raises `HTTPError`, a `requests.RequestException`,
which the executor's final handler converts to `RAWGAPIError` — and the
retry decorator catches `RAWGAPIError`, so these failures consume the full
retry budget before being surfaced. -/

/-- Claim C3 counterexample: a constant 500 response under the configured
`max_retries = 3`, `delay = 1` is attempted 3 times (not 1) with two
backoff sleeps — the failure is retried and consumes the whole retry
budget, contradicting the claim. -/
theorem c3_counterexample :
    (retriedRequest "K" rawgBaseUrl gamesEndpoint []
        (fun _ => NetOutcome.response 500 "Internal Server Error" (() : Unit))
        configMaxRetries configRetryDelay).attempts = 3 ∧
    (retriedRequest "K" rawgBaseUrl gamesEndpoint []
        (fun _ => NetOutcome.response 500 "Internal Server Error" (() : Unit))
        configMaxRetries configRetryDelay).attempts ≠ 1 ∧
    (retriedRequest "K" rawgBaseUrl gamesEndpoint []
        (fun _ => NetOutcome.response 500 "Internal Server Error" (() : Unit))
        configMaxRetries configRetryDelay).sleeps ≠ [] := by
  refine ⟨by decide, by decide, by decide⟩

/-- Claim C3 (amended): an HTTP failure status other than 404/429 is
wrapped into the generic API error whose message preserves the status
code together with the failing URL; that error is classified retryable,
so under the retry wrapper it consumes the full retry budget (all
`max_retries` attempts) before being surfaced unchanged. -/
theorem c3_amended (apiKey baseUrl endpoint : String) (params : List (String × String))
    (status : Nat) (reason : String) (body : β) (maxRetries : Nat) (delay : ℚ)
    (h4 : 400 ≤ status) (h6 : status < 600) (hn4 : status ≠ 404) (hn9 : status ≠ 429)
    (hm : 1 ≤ maxRetries) :
    (makeRequest apiKey baseUrl endpoint params
        (NetOutcome.response status reason body)).result =
      Except.error (Exn.rawgAPIError ("Request failed: " ++
        httpErrorText status reason (requestUrl apiKey baseUrl endpoint params))) ∧
    strContains ("Request failed: " ++
        httpErrorText status reason (requestUrl apiKey baseUrl endpoint params))
      (toString status) = true ∧
    (retriedRequest apiKey baseUrl endpoint params
        (fun _ => NetOutcome.response status reason body) maxRetries delay).attempts =
      maxRetries ∧
    (retriedRequest apiKey baseUrl endpoint params
        (fun _ => NetOutcome.response status reason body) maxRetries delay).result =
      some (Except.error (Exn.rawgAPIError ("Request failed: " ++
        httpErrorText status reason (requestUrl apiKey baseUrl endpoint params)))) := by
  have hn200 : status ≠ 200 := by omega
  have hres : (makeRequest apiKey baseUrl endpoint params
      (NetOutcome.response status reason body)).result =
      Except.error (Exn.rawgAPIError ("Request failed: " ++
        httpErrorText status reason (requestUrl apiKey baseUrl endpoint params))) := by
    simp [makeRequest, makeRequestResult, raiseForStatusMsg, hn200, hn4, hn9, h4, h6]
  have hcontains : strContains ("Request failed: " ++
      httpErrorText status reason (requestUrl apiKey baseUrl endpoint params))
      (toString status) = true := by
    unfold httpErrorText
    split_ifs with h5
    · rw [show toString status ++ " Client Error: " ++ reason ++ " for url: " ++
          requestUrl apiKey baseUrl endpoint params =
          toString status ++ (" Client Error: " ++ (reason ++ (" for url: " ++
          requestUrl apiKey baseUrl endpoint params))) from by
        simp [String.append_assoc]]
      exact strContains_middle _ _ _
    · rw [show toString status ++ " Server Error: " ++ reason ++ " for url: " ++
          requestUrl apiKey baseUrl endpoint params =
          toString status ++ (" Server Error: " ++ (reason ++ (" for url: " ++
          requestUrl apiKey baseUrl endpoint params))) from by
        simp [String.append_assoc]]
      exact strContains_middle _ _ _
  have hretry := retryAux_allFail
    (fun i =>
      let e := makeRequest apiKey baseUrl endpoint params
        (NetOutcome.response status reason body)
      (e.result, e.logs))
    delay maxRetries
    (fun _ => Exn.rawgAPIError ("Request failed: " ++
      httpErrorText status reason (requestUrl apiKey baseUrl endpoint params)))
    (fun i _ => hres) maxRetries 0 none (by omega) hm
  exact ⟨hres, hcontains, hretry.2.1, hretry.1⟩

/-- Witness for the amended C3 at a concrete 500 response with the
configured retry parameters. -/
theorem c3_amended_witness :
    (makeRequest "K" rawgBaseUrl gamesEndpoint []
        (NetOutcome.response 500 "Internal Server Error" (() : Unit))).result =
      Except.error (Exn.rawgAPIError ("Request failed: " ++
        httpErrorText 500 "Internal Server Error" (requestUrl "K" rawgBaseUrl gamesEndpoint []))) ∧
    strContains ("Request failed: " ++
        httpErrorText 500 "Internal Server Error" (requestUrl "K" rawgBaseUrl gamesEndpoint []))
      (toString 500) = true ∧
    (retriedRequest "K" rawgBaseUrl gamesEndpoint []
        (fun _ => NetOutcome.response 500 "Internal Server Error" (() : Unit))
        configMaxRetries configRetryDelay).attempts = configMaxRetries :=
  have h := c3_amended "K" rawgBaseUrl gamesEndpoint [] 500 "Internal Server Error" ()
    configMaxRetries configRetryDelay (by norm_num) (by norm_num) (by norm_num)
    (by norm_num) (by decide)
  ⟨h.1, h.2.1, h.2.2.1⟩

/-! ## Claim C4

The key is injected into every outgoing parameter set, and it is passed
only to a debug-level log that the configured INFO level suppresses — but
`raise_for_status`'s `HTTPError` message embeds the full request URL,
query string (and hence API key) included, and the executor's generic
handler interpolates it into the surfaced `RAWGAPIError`, which the retry
wrapper additionally logs at warning level. -/

theorem makeRequest_key_mem (apiKey baseUrl endpoint : String)
    (params : List (String × String)) (o : NetOutcome β) :
    ("key", apiKey) ∈ (makeRequest apiKey baseUrl endpoint params o).sentParams :=
  setParam_mem params "key" apiKey

theorem makeRequest_emitted (apiKey baseUrl endpoint : String)
    (params : List (String × String)) (o : NetOutcome β) :
    emittedLogs (makeRequest apiKey baseUrl endpoint params o).logs = [] := rfl

/-- On outcomes outside the `raise_for_status` range the executor's result
does not depend on the API key. -/
theorem makeRequestResult_key_indep (k k2 baseUrl endpoint : String)
    (params : List (String × String)) (o : NetOutcome β) (h : safeOutcome o = true) :
    makeRequestResult k baseUrl endpoint params o =
      makeRequestResult k2 baseUrl endpoint params o := by
  cases o with
  | timeout => rfl
  | connectionError => rfl
  | otherRequestException m => rfl
  | response s r b =>
      simp only [safeOutcome, Bool.or_eq_true, decide_eq_true_eq] at h
      by_cases h200 : s = 200
      · simp [makeRequestResult, h200]
      · by_cases h429 : s = 429
        · simp [makeRequestResult, h200, h429]
        · by_cases h404 : s = 404
          · simp [makeRequestResult, h200, h429, h404]
          · have hr : ¬ (400 ≤ s ∧ s < 600) := by omega
            simp [makeRequestResult, raiseForStatusMsg, h200, h429, h404, hr]

/-- The retry wrapper is a congruence for attempt results and emitted
logs: two operations agreeing on results and emitted logs produce runs
agreeing on result, attempt count, sleeps and emitted logs. -/
theorem retryAux_congr (op op2 : Nat → Except Exn α × List LogRec) (delay : ℚ) (m : Nat)
    (h1 : ∀ i, (op i).1 = (op2 i).1)
    (h2 : ∀ i, emittedLogs (op i).2 = emittedLogs (op2 i).2) :
    ∀ (r a : Nat) (last : Option Exn),
      (retryAux op delay m r a last).result = (retryAux op2 delay m r a last).result ∧
      (retryAux op delay m r a last).attempts = (retryAux op2 delay m r a last).attempts ∧
      (retryAux op delay m r a last).sleeps = (retryAux op2 delay m r a last).sleeps ∧
      emittedLogs (retryAux op delay m r a last).logs =
        emittedLogs (retryAux op2 delay m r a last).logs := by
  intro r
  induction r with
  | zero => intro a last; exact ⟨rfl, rfl, rfl, rfl⟩
  | succ r ih =>
      intro a last
      have hrec := ih (a + 1)
      cases hc : (op2 a).1 with
      | ok v =>
          have hc1 : (op a).1 = .ok v := by rw [h1 a, hc]
          simp only [retryAux, hc, hc1]
          exact ⟨by trivial, by trivial, by trivial, h2 a⟩
      | error e =>
          have hc1 : (op a).1 = .error e := by rw [h1 a, hc]
          simp only [retryAux, hc, hc1]
          by_cases hlt : a < m - 1
          · simp only [if_pos hlt]
            obtain ⟨hr1, hr2, hr3, hr4⟩ := hrec (some e)
            have h2a := h2 a
            simp only [emittedLogs] at h2a hr4 ⊢
            refine ⟨hr1, by rw [hr2], by rw [hr3], ?_⟩
            simp [List.filter_append, List.filter_cons, h2a, hr4]
          · simp only [if_neg hlt]
            obtain ⟨hr1, hr2, hr3, hr4⟩ := hrec (some e)
            have h2a := h2 a
            simp only [emittedLogs] at h2a hr4 ⊢
            refine ⟨hr1, by rw [hr2], by rw [hr3], ?_⟩
            simp [List.filter_append, List.filter_cons, h2a, hr4]

/-- Claim C4 (amended): the configured API key is injected into the
outgoing parameter set of every attempt; on outcomes outside the
`raise_for_status` range (success, 404, 429, timeout, connection error)
neither the surfaced result nor any log record emitted at the configured
INFO level depends on the key.  (For other HTTP failure statuses the
surfaced error message and a warning-level log embed the request URL,
key included — see the counterexample.) -/
theorem c4_amended (k k2 baseUrl endpoint : String) (params : List (String × String))
    (outs : Nat → NetOutcome β) (maxRetries : Nat) (delay : ℚ)
    (hsafe : ∀ i, safeOutcome (outs i) = true) :
    (∀ i, ("key", k) ∈ (makeRequest k baseUrl endpoint params (outs i)).sentParams) ∧
    (retriedRequest k baseUrl endpoint params outs maxRetries delay).result =
      (retriedRequest k2 baseUrl endpoint params outs maxRetries delay).result ∧
    emittedLogs (retriedRequest k baseUrl endpoint params outs maxRetries delay).logs =
      emittedLogs (retriedRequest k2 baseUrl endpoint params outs maxRetries delay).logs := by
  have hcongr := retryAux_congr
    (fun i =>
      let e := makeRequest k baseUrl endpoint params (outs i)
      (e.result, e.logs))
    (fun i =>
      let e := makeRequest k2 baseUrl endpoint params (outs i)
      (e.result, e.logs))
    delay maxRetries
    (fun i => makeRequestResult_key_indep k k2 baseUrl endpoint params (outs i) (hsafe i))
    (fun i => by
      rw [show emittedLogs (makeRequest k baseUrl endpoint params (outs i)).logs = []
            from rfl,
          show emittedLogs (makeRequest k2 baseUrl endpoint params (outs i)).logs = []
            from rfl])
    maxRetries 0 none
  exact ⟨fun i => makeRequest_key_mem k baseUrl endpoint params (outs i),
    hcongr.1, hcongr.2.2.2⟩

/-- Witness for the amended C4: concrete timeout outcomes under two
different keys give identical surfaced results and identical emitted
logs, and the key is present in the sent parameters. -/
theorem c4_amended_witness :
    (∀ i : Nat, ("key", "KEY-A") ∈ (makeRequest "KEY-A" rawgBaseUrl gamesEndpoint []
        ((fun _ => (NetOutcome.timeout : NetOutcome Unit)) i)).sentParams) ∧
    (retriedRequest "KEY-A" rawgBaseUrl gamesEndpoint []
        (fun _ => (NetOutcome.timeout : NetOutcome Unit))
        configMaxRetries configRetryDelay).result =
      (retriedRequest "KEY-B" rawgBaseUrl gamesEndpoint []
        (fun _ => (NetOutcome.timeout : NetOutcome Unit))
        configMaxRetries configRetryDelay).result ∧
    emittedLogs (retriedRequest "KEY-A" rawgBaseUrl gamesEndpoint []
        (fun _ => (NetOutcome.timeout : NetOutcome Unit))
        configMaxRetries configRetryDelay).logs =
      emittedLogs (retriedRequest "KEY-B" rawgBaseUrl gamesEndpoint []
        (fun _ => (NetOutcome.timeout : NetOutcome Unit))
        configMaxRetries configRetryDelay).logs :=
  c4_amended "KEY-A" "KEY-B" rawgBaseUrl gamesEndpoint []
    (fun _ => (NetOutcome.timeout : NetOutcome Unit))
    configMaxRetries configRetryDelay (fun _ => rfl)

/-- Claim C4 counterexample: with key `SECRET` and a constant 500
response, the run emits a warning-level log whose message contains the
key, and the surfaced error message contains the key — refuting "the key
is never logged nor surfaced in any error message". -/
theorem c4_counterexample :
    (∃ rec ∈ emittedLogs (retriedRequest "SECRET" rawgBaseUrl gamesEndpoint []
        (fun _ => NetOutcome.response 500 "Internal Server Error" (() : Unit))
        configMaxRetries configRetryDelay).logs,
      20 ≤ rec.1 ∧ strContains rec.2 "SECRET" = true) ∧
    (retriedRequest "SECRET" rawgBaseUrl gamesEndpoint []
        (fun _ => NetOutcome.response 500 "Internal Server Error" (() : Unit))
        configMaxRetries configRetryDelay).result =
      some (Except.error (Exn.rawgAPIError
        "Request failed: 500 Server Error: Internal Server Error for url: https://api.rawg.io/games?key=SECRET")) ∧
    strContains
      "Request failed: 500 Server Error: Internal Server Error for url: https://api.rawg.io/games?key=SECRET"
      "SECRET" = true := by
  refine ⟨by decide, by decide, by decide⟩

/-! ## Claim C2 -/

theorem lookupEntry_store [DecidableEq κ] (st : CacheState κ β) (key : κ) (v : β) (now : ℚ) :
    lookupEntry (storeEntry st key v now) key = some (v, now) := by
  simp [lookupEntry, storeEntry, List.find?_cons]

/-- Claim C2: for calls with identical (endpoint, parameters) key — a
cached value younger than the time-to-live is returned without any
network call and leaves the cache unchanged; once the time-to-live has
elapsed (or on a cold cache) the call performs exactly one network call;
a value is served from cache only when younger than its time-to-live; a
failed computation is never stored (the cache state is unchanged and the
error propagates), while a successful one is stored with the current
timestamp. -/
theorem c2_cache_ttl {κ β : Type} [DecidableEq κ] (ttl now : ℚ) (key : κ)
    (compute : Unit → Except Exn β) (st : CacheState κ β) :
    (∀ v ts, lookupEntry st key = some (v, ts) → now - ts < ttl →
      (getOrCompute ttl now key compute st).result = .ok v ∧
      (getOrCompute ttl now key compute st).networkCalls = 0 ∧
      (getOrCompute ttl now key compute st).state = st) ∧
    (∀ v ts, lookupEntry st key = some (v, ts) → ttl ≤ now - ts →
      (getOrCompute ttl now key compute st).networkCalls = 1) ∧
    (lookupEntry st key = none →
      (getOrCompute ttl now key compute st).networkCalls = 1) ∧
    ((getOrCompute ttl now key compute st).networkCalls = 0 →
      ∃ v ts, lookupEntry st key = some (v, ts) ∧ now - ts < ttl ∧
        (getOrCompute ttl now key compute st).result = .ok v) ∧
    (∀ e, compute () = .error e →
      (getOrCompute ttl now key compute st).state = st ∧
      ((getOrCompute ttl now key compute st).networkCalls = 1 →
        (getOrCompute ttl now key compute st).result = .error e)) ∧
    (∀ v, compute () = .ok v → (getOrCompute ttl now key compute st).networkCalls = 1 →
      (getOrCompute ttl now key compute st).result = .ok v ∧
      lookupEntry (getOrCompute ttl now key compute st).state key = some (v, now)) := by
  cases hl : lookupEntry st key with
  | some p =>
      obtain ⟨v0, ts0⟩ := p
      by_cases hfresh : now - ts0 < ttl
      · refine ⟨?_, ?_, ?_, ?_, ?_, ?_⟩
        · intro v ts hv _
          cases hv
          simp [getOrCompute, hl, if_pos hfresh]
        · intro v ts hv hst
          cases hv
          exact absurd hst (by linarith)
        · intro h; cases h
        · intro _
          exact ⟨v0, ts0, rfl, hfresh, by simp [getOrCompute, hl, if_pos hfresh]⟩
        · intro e _
          refine ⟨by simp [getOrCompute, hl, if_pos hfresh], ?_⟩
          intro hcalls
          have : (getOrCompute ttl now key compute st).networkCalls = 0 := by
            simp [getOrCompute, hl, if_pos hfresh]
          omega
        · intro v _ hcalls
          have : (getOrCompute ttl now key compute st).networkCalls = 0 := by
            simp [getOrCompute, hl, if_pos hfresh]
          omega
      · cases hc : compute () with
        | ok v2 =>
            refine ⟨?_, ?_, ?_, ?_, ?_, ?_⟩
            · intro v ts hv hfr
              cases hv
              exact absurd hfr hfresh
            · intro v ts _ _
              simp [getOrCompute, hl, if_neg hfresh, hc]
            · intro h; cases h
            · intro hcalls
              have : (getOrCompute ttl now key compute st).networkCalls = 1 := by
                simp [getOrCompute, hl, if_neg hfresh, hc]
              omega
            · intro e he
              cases he
            · intro v hv _
              cases hv
              constructor
              · simp [getOrCompute, hl, if_neg hfresh, hc]
              · have hst : (getOrCompute ttl now key compute st).state =
                    storeEntry st key v2 now := by
                  simp [getOrCompute, hl, if_neg hfresh, hc]
                rw [hst]
                exact lookupEntry_store st key v2 now
        | error e =>
            refine ⟨?_, ?_, ?_, ?_, ?_, ?_⟩
            · intro v ts hv hfr
              cases hv
              exact absurd hfr hfresh
            · intro v ts _ _
              simp [getOrCompute, hl, if_neg hfresh, hc]
            · intro h; cases h
            · intro hcalls
              have : (getOrCompute ttl now key compute st).networkCalls = 1 := by
                simp [getOrCompute, hl, if_neg hfresh, hc]
              omega
            · intro e2 he
              cases he
              exact ⟨by simp [getOrCompute, hl, if_neg hfresh, hc],
                fun _ => by simp [getOrCompute, hl, if_neg hfresh, hc]⟩
            · intro v hv _
              cases hv
  | none =>
      cases hc : compute () with
      | ok v2 =>
          refine ⟨?_, ?_, ?_, ?_, ?_, ?_⟩
          · intro v ts hv _; cases hv
          · intro v ts hv _; cases hv
          · intro _
            simp [getOrCompute, hl, hc]
          · intro hcalls
            have : (getOrCompute ttl now key compute st).networkCalls = 1 := by
              simp [getOrCompute, hl, hc]
            omega
          · intro e he
            cases he
          · intro v hv _
            cases hv
            constructor
            · simp [getOrCompute, hl, hc]
            · have hst : (getOrCompute ttl now key compute st).state =
                  storeEntry st key v2 now := by
                simp [getOrCompute, hl, hc]
              rw [hst]
              exact lookupEntry_store st key v2 now
      | error e =>
          refine ⟨?_, ?_, ?_, ?_, ?_, ?_⟩
          · intro v ts hv _; cases hv
          · intro v ts hv _; cases hv
          · intro _
            simp [getOrCompute, hl, hc]
          · intro hcalls
            have : (getOrCompute ttl now key compute st).networkCalls = 1 := by
              simp [getOrCompute, hl, hc]
            omega
          · intro e2 he
            cases he
            exact ⟨by simp [getOrCompute, hl, hc],
              fun _ => by simp [getOrCompute, hl, hc]⟩
          · intro v hv _
            cases hv

/-- Witness for C2 with the configured one-hour time-to-live, the
(endpoint, parameters) key of the games list and a computation that is a
concrete executor call: a 500-second-old entry is served without a
network call. -/
theorem c2_cache_ttl_witness :
    (getOrCompute configCacheTtl 1000 (gamesEndpoint, ([] : List (String × String)))
      (fun _ => (makeRequest "K" rawgBaseUrl gamesEndpoint []
        (NetOutcome.response 200 "OK" (() : Unit))).result)
      ⟨[((gamesEndpoint, []), ReqSuccess.json (), 500)]⟩).result =
        .ok (ReqSuccess.json ()) ∧
    (getOrCompute configCacheTtl 1000 (gamesEndpoint, ([] : List (String × String)))
      (fun _ => (makeRequest "K" rawgBaseUrl gamesEndpoint []
        (NetOutcome.response 200 "OK" (() : Unit))).result)
      ⟨[((gamesEndpoint, []), ReqSuccess.json (), 500)]⟩).networkCalls = 0 := by
  have h := (c2_cache_ttl configCacheTtl 1000 (gamesEndpoint, ([] : List (String × String)))
    (fun _ => (makeRequest "K" rawgBaseUrl gamesEndpoint []
      (NetOutcome.response 200 "OK" (() : Unit))).result)
    ⟨[((gamesEndpoint, []), ReqSuccess.json (), 500)]⟩).1
    (ReqSuccess.json ()) 500 (by simp [lookupEntry]) (by norm_num [configCacheTtl])
  exact ⟨h.1, h.2.1⟩

/-! ## Claim C5 -/

theorem lcsLen_nil (bs : List Char) : lcsLen [] bs = 0 := by
  simp [lcsLen, lcsFold, List.getLast?_replicate]

theorem lcsScore_of_len_zero (q c : String) (h : q.length = 0) : lcsScore q c = 0 := by
  have h2 : q.toList = [] := List.length_eq_zero.mp h
  simp [lcsScore, lowerChars, String.toList, show q.data = [] from h2, lcsLen_nil]

/-- The Boolean cutoff test agrees with the rational statement
`simCutoff < simScore q c`. -/
theorem simCutoff_lt_iff (q c : String) :
    simCutoff < simScore q c ↔ aboveCutoff q c = true := by
  rw [aboveCutoff, decide_eq_true_eq]
  by_cases h : q.length = 0
  · rw [simCutoff, simScore, lcsScore_of_len_zero q c h, h]
    norm_num
  · have hq : (0 : ℚ) < (q.length : ℚ) := by
      exact_mod_cast Nat.pos_of_ne_zero h
    rw [simCutoff, simScore, div_lt_div_iff (by norm_num) hq]
    constructor
    · intro hh
      have : (3 * q.length : ℚ) < (5 * lcsScore q c : ℚ) := by push_cast; linarith
      exact_mod_cast this
    · intro hh
      have : (3 * q.length : ℚ) < (5 * lcsScore q c : ℚ) := by exact_mod_cast hh
      push_cast at this
      linarith

/-- Comparing normalized similarity scores of two candidates for the same
query agrees with comparing the raw scores. -/
theorem simScore_le_iff (q b c : String) :
    simScore q b ≤ simScore q c ↔ lcsScore q b ≤ lcsScore q c := by
  by_cases h : q.length = 0
  · rw [simScore, simScore, lcsScore_of_len_zero q b h, lcsScore_of_len_zero q c h]
    simp
  · have hq : (0 : ℚ) < (q.length : ℚ) := by
      exact_mod_cast Nat.pos_of_ne_zero h
    rw [simScore, simScore, div_le_div_iff hq hq]
    constructor
    · intro hh
      have : (lcsScore q b : ℚ) ≤ (lcsScore q c : ℚ) := by
        have := mul_le_mul_of_nonneg_right hh (le_of_lt (by positivity : (0:ℚ) < 1))
        nlinarith
      exact_mod_cast this
    · intro hh
      have : (lcsScore q b : ℚ) ≤ (lcsScore q c : ℚ) := by exact_mod_cast hh
      nlinarith

theorem pickBest_cons_none (q c0 : String) (rest : List String)
    (h : pickBest q rest = none) : pickBest q (c0 :: rest) = some c0 := by
  simp [pickBest, h]

theorem pickBest_cons_some_le (q c0 : String) (rest : List String) (b : String)
    (h : pickBest q rest = some b) (hle : lcsScore q b ≤ lcsScore q c0) :
    pickBest q (c0 :: rest) = some c0 := by
  simp [pickBest, h, hle]

theorem pickBest_cons_some_gt (q c0 : String) (rest : List String) (b : String)
    (h : pickBest q rest = some b) (hle : ¬ lcsScore q b ≤ lcsScore q c0) :
    pickBest q (c0 :: rest) = some b := by
  simp [pickBest, h, hle]

theorem pickBest_eq_none_iff (q : String) (cs : List String) :
    pickBest q cs = none ↔ cs = [] := by
  cases cs with
  | nil => simp [pickBest]
  | cons c rest =>
      constructor
      · intro h
        exfalso
        cases hr : pickBest q rest with
        | none => rw [pickBest_cons_none q c rest hr] at h; cases h
        | some b =>
            by_cases hle : lcsScore q b ≤ lcsScore q c
            · rw [pickBest_cons_some_le q c rest b hr hle] at h; cases h
            · rw [pickBest_cons_some_gt q c rest b hr hle] at h; cases h
      · intro h; cases h

theorem pickBest_spec (q : String) (cs : List String) (c : String)
    (h : pickBest q cs = some c) :
    c ∈ cs ∧ ∀ d ∈ cs, lcsScore q d ≤ lcsScore q c := by
  induction cs generalizing c with
  | nil => cases h
  | cons c0 rest ih =>
      cases hr : pickBest q rest with
      | none =>
          rw [pickBest_cons_none q c0 rest hr] at h
          cases h
          have hrest : rest = [] := (pickBest_eq_none_iff q rest).mp hr
          subst hrest
          refine ⟨List.mem_cons_self _ _, ?_⟩
          intro d hd
          rcases List.mem_cons.mp hd with h1 | h1
          · subst h1; exact le_refl _
          · cases h1
      | some b =>
          obtain ⟨hbmem, hbmax⟩ := ih b hr
          by_cases hle : lcsScore q b ≤ lcsScore q c0
          · rw [pickBest_cons_some_le q c0 rest b hr hle] at h
            cases h
            refine ⟨List.mem_cons_self _ _, ?_⟩
            intro d hd
            rcases List.mem_cons.mp hd with h1 | h1
            · subst h1; exact le_refl _
            · exact le_trans (hbmax d h1) hle
          · rw [pickBest_cons_some_gt q c0 rest b hr hle] at h
            cases h
            refine ⟨List.mem_cons_of_mem _ hbmem, ?_⟩
            intro d hd
            rcases List.mem_cons.mp hd with h1 | h1
            · subst h1; omega
            · exact hbmax d h1

/-- Claim C5: the best-fuzzy-match search follows the strict priority
order — (1) the first candidate whose name is case-insensitive-equal to
the query, (2) the closest match by similarity ratio above the fixed
cutoff (maximal among all candidates above the cutoff), (3) the first
candidate of the remote ranking — and returns "no match" exactly when the
candidate list is empty; on candidates
`["Halo 5: Guardians", "Halo Infinite"]` with query `"Halo 5"` the exact
branch does not fire and the similarity branch selects
`"Halo 5: Guardians"`. -/
theorem c5_search_best_match (q : String) (cs : List String) :
    (searchBestMatch q cs = none ↔ cs = []) ∧
    (∀ c, cs.find? (fun x => lowerChars x == lowerChars q) = some c →
      searchBestMatch q cs = some c) ∧
    (cs.find? (fun x => lowerChars x == lowerChars q) = none →
      ∀ c, bestAboveCutoff q cs = some c →
        searchBestMatch q cs = some c ∧ c ∈ cs ∧ simCutoff < simScore q c ∧
        ∀ d ∈ cs, simCutoff < simScore q d → simScore q d ≤ simScore q c) ∧
    (cs.find? (fun x => lowerChars x == lowerChars q) = none →
      bestAboveCutoff q cs = none → searchBestMatch q cs = cs.head?) ∧
    (searchBestMatch "Halo 5" ["Halo 5: Guardians", "Halo Infinite"] =
        some "Halo 5: Guardians" ∧
      (["Halo 5: Guardians", "Halo Infinite"].find?
        (fun x => lowerChars x == lowerChars "Halo 5")) = none ∧
      bestAboveCutoff "Halo 5" ["Halo 5: Guardians", "Halo Infinite"] =
        some "Halo 5: Guardians") := by
  refine ⟨?_, ?_, ?_, ?_, by decide, by decide, by decide⟩
  · cases cs with
    | nil => simp [searchBestMatch]
    | cons c0 rest =>
        simp only [searchBestMatch]
        constructor
        · intro h
          cases hf : (c0 :: rest).find? (fun c => lowerChars c == lowerChars q) with
          | some c => rw [hf] at h; cases h
          | none =>
              rw [hf] at h
              cases hb : bestAboveCutoff q (c0 :: rest) with
              | some c => rw [hb] at h; cases h
              | none => rw [hb] at h; cases h
        · intro h; cases h
  · intro c h
    cases cs with
    | nil => cases h
    | cons c0 rest =>
        simp only [searchBestMatch]
        rw [h]
  · intro hf c hb
    cases cs with
    | nil => cases hb
    | cons c0 rest =>
        obtain ⟨hmemf, hmax⟩ := pickBest_spec q _ c hb
        rw [List.mem_filter] at hmemf
        refine ⟨?_, hmemf.1, (simCutoff_lt_iff q c).mpr hmemf.2, ?_⟩
        · simp only [searchBestMatch]
          rw [hf, hb]
        · intro d hd hcut
          have hdf : d ∈ List.filter (fun x => aboveCutoff q x) (c0 :: rest) :=
            List.mem_filter.mpr ⟨hd, (simCutoff_lt_iff q d).mp hcut⟩
          exact (simScore_le_iff q d c).mpr (hmax d hdf)
  · intro hf hb
    cases cs with
    | nil => rfl
    | cons c0 rest =>
        simp only [searchBestMatch]
        rw [hf, hb]
        rfl

/-- Witness for C5: the Halo example (similarity branch) and the empty
candidate list (no match). -/
theorem c5_search_best_match_witness :
    searchBestMatch "Halo 5" ["Halo 5: Guardians", "Halo Infinite"] =
      some "Halo 5: Guardians" ∧
    searchBestMatch "x" ([] : List String) = none :=
  ⟨(c5_search_best_match "Halo 5" ["Halo 5: Guardians", "Halo Infinite"]).2.2.2.2.1,
   (c5_search_best_match "x" []).1.mpr rfl⟩

/-! ## Claim C9 -/

/-- Claim C9: normalizing an achievement's raw unlock-percentage never
raises — the stored value is the `float()` conversion when the field is a
number or a numeric string, and Python `None` when the field is `None` or
a non-numeric string (the `except (ValueError, TypeError)` clause turns
both failure modes into `None`). -/
theorem c9_percent_normalization :
    (∀ q : ℚ, normalizePercent (PyVal.num q) = some q) ∧
    normalizePercent PyVal.none = Option.none ∧
    (∀ s, normalizePercent (PyVal.str s) = pyFloatOfString s) ∧
    normalizePercent (PyVal.str "N/A") = Option.none ∧
    normalizePercent (PyVal.str "") = Option.none ∧
    normalizePercent (PyVal.str "12.3.4") = Option.none ∧
    normalizePercent (PyVal.str "abc") = Option.none ∧
    normalizePercent (PyVal.str "100") = some 100 ∧
    normalizePercent (PyVal.str "42.5") = some (85 / 2) := by
  refine ⟨fun q => rfl, rfl, ?_, by decide, by decide, by decide, by decide, ?_, ?_⟩
  · intro s
    cases h : pyFloatOfString s with
    | none => simp [normalizePercent, pyFloat, h]
    | some v => simp [normalizePercent, pyFloat, h]
  · show pyFloatOfString "100" = some 100
    simp +decide [pyFloatOfString, trimWs, isPyWs, parseSign, spanDigits, digitsToNat,
      finishFloat]
  · show pyFloatOfString "42.5" = some (85 / 2)
    simp +decide [pyFloatOfString, trimWs, isPyWs, parseSign, spanDigits, digitsToNat,
      finishFloat]
    norm_num

end GameGuide
